import Mathlib

/-!
Verification development for the Bruno voice-command pipeline.

The Python sources model JSON-like values passed between the speech
recognizer, the LLM planner, the plan validator and the dispatch code.
We embed those values as the inductive type JVal, with Python floats and
ints collapsed into exact rationals (the claims under study never depend
on binary floating-point rounding), and embed the fallible Python
functions as Except-valued Lean functions whose error constructors name
the Python exception class that the corresponding operation raises.
-/

/-- A JSON-like Python value: None, bool, number (int or float, modelled
as an exact rational), string, list, or dict (association list in
insertion order). -/
inductive JVal where
  | jnull
  | jbool (b : Bool)
  | jnum (q : ℚ)
  | jstr (s : String)
  | jarr (xs : List JVal)
  | jobj (fields : List (String × JVal))

mutual

def decEqJ : (a b : JVal) → Decidable (a = b)
  | .jnull, .jnull => .isTrue rfl
  | .jbool a, .jbool b =>
      match decEq a b with
      | .isTrue h => .isTrue (by rw [h])
      | .isFalse h => .isFalse (fun hh => by cases hh; exact h rfl)
  | .jnum a, .jnum b =>
      match decEq a b with
      | .isTrue h => .isTrue (by rw [h])
      | .isFalse h => .isFalse (fun hh => by cases hh; exact h rfl)
  | .jstr a, .jstr b =>
      match decEq a b with
      | .isTrue h => .isTrue (by rw [h])
      | .isFalse h => .isFalse (fun hh => by cases hh; exact h rfl)
  | .jarr xs, .jarr ys =>
      match decEqLJ xs ys with
      | .isTrue h => .isTrue (by rw [h])
      | .isFalse h => .isFalse (fun hh => by cases hh; exact h rfl)
  | .jobj xs, .jobj ys =>
      match decEqFJ xs ys with
      | .isTrue h => .isTrue (by rw [h])
      | .isFalse h => .isFalse (fun hh => by cases hh; exact h rfl)
  | .jnull, .jbool _ => .isFalse (fun h => nomatch h)
  | .jnull, .jnum _ => .isFalse (fun h => nomatch h)
  | .jnull, .jstr _ => .isFalse (fun h => nomatch h)
  | .jnull, .jarr _ => .isFalse (fun h => nomatch h)
  | .jnull, .jobj _ => .isFalse (fun h => nomatch h)
  | .jbool _, .jnull => .isFalse (fun h => nomatch h)
  | .jbool _, .jnum _ => .isFalse (fun h => nomatch h)
  | .jbool _, .jstr _ => .isFalse (fun h => nomatch h)
  | .jbool _, .jarr _ => .isFalse (fun h => nomatch h)
  | .jbool _, .jobj _ => .isFalse (fun h => nomatch h)
  | .jnum _, .jnull => .isFalse (fun h => nomatch h)
  | .jnum _, .jbool _ => .isFalse (fun h => nomatch h)
  | .jnum _, .jstr _ => .isFalse (fun h => nomatch h)
  | .jnum _, .jarr _ => .isFalse (fun h => nomatch h)
  | .jnum _, .jobj _ => .isFalse (fun h => nomatch h)
  | .jstr _, .jnull => .isFalse (fun h => nomatch h)
  | .jstr _, .jbool _ => .isFalse (fun h => nomatch h)
  | .jstr _, .jnum _ => .isFalse (fun h => nomatch h)
  | .jstr _, .jarr _ => .isFalse (fun h => nomatch h)
  | .jstr _, .jobj _ => .isFalse (fun h => nomatch h)
  | .jarr _, .jnull => .isFalse (fun h => nomatch h)
  | .jarr _, .jbool _ => .isFalse (fun h => nomatch h)
  | .jarr _, .jnum _ => .isFalse (fun h => nomatch h)
  | .jarr _, .jstr _ => .isFalse (fun h => nomatch h)
  | .jarr _, .jobj _ => .isFalse (fun h => nomatch h)
  | .jobj _, .jnull => .isFalse (fun h => nomatch h)
  | .jobj _, .jbool _ => .isFalse (fun h => nomatch h)
  | .jobj _, .jnum _ => .isFalse (fun h => nomatch h)
  | .jobj _, .jstr _ => .isFalse (fun h => nomatch h)
  | .jobj _, .jarr _ => .isFalse (fun h => nomatch h)

def decEqLJ : (a b : List JVal) → Decidable (a = b)
  | [], [] => .isTrue rfl
  | [], _ :: _ => .isFalse (fun h => nomatch h)
  | _ :: _, [] => .isFalse (fun h => nomatch h)
  | x :: xs, y :: ys =>
      match decEqJ x y with
      | .isTrue h1 =>
        match decEqLJ xs ys with
        | .isTrue h2 => .isTrue (by rw [h1, h2])
        | .isFalse h2 => .isFalse (fun hh => by cases hh; exact h2 rfl)
      | .isFalse h1 => .isFalse (fun hh => by cases hh; exact h1 rfl)

def decEqFJ : (a b : List (String × JVal)) → Decidable (a = b)
  | [], [] => .isTrue rfl
  | [], _ :: _ => .isFalse (fun h => nomatch h)
  | _ :: _, [] => .isFalse (fun h => nomatch h)
  | (k1, v1) :: xs, (k2, v2) :: ys =>
      match decEq k1 k2 with
      | .isTrue hk =>
        match decEqJ v1 v2 with
        | .isTrue h1 =>
          match decEqFJ xs ys with
          | .isTrue h2 => .isTrue (by rw [hk, h1, h2])
          | .isFalse h2 => .isFalse (fun hh => by cases hh; exact h2 rfl)
        | .isFalse h1 => .isFalse (fun hh => by cases hh; exact h1 rfl)
      | .isFalse hk => .isFalse (fun hh => by cases hh; exact hk rfl)

end

instance : DecidableEq JVal := decEqJ

instance {ε α : Type} [DecidableEq ε] [DecidableEq α] :
    DecidableEq (Except ε α) := fun
  | .ok a, .ok b =>
      match decEq a b with
      | .isTrue h => .isTrue (by rw [h])
      | .isFalse h => .isFalse (fun hh => by cases hh; exact h rfl)
  | .error a, .error b =>
      match decEq a b with
      | .isTrue h => .isTrue (by rw [h])
      | .isFalse h => .isFalse (fun hh => by cases hh; exact h rfl)
  | .ok _, .error _ => .isFalse (fun h => nomatch h)
  | .error _, .ok _ => .isFalse (fun h => nomatch h)

/-- Python exceptions that the embedded code can raise. -/
inductive PyErr where
  | valueError
  | typeError
  | attributeError
  | requestError
  | httpError
  | jsonDecodeError
deriving DecidableEq

/-- First-match lookup in a dict association list (Python dicts have
unique keys, so first match is the match). -/
def lookupF : List (String × JVal) → String → Option JVal
  | [], _ => none
  | (k, v) :: rest, key => if k == key then some v else lookupF rest key

/-- Python d.get(key, default): returns the stored value (even None) when
the key is present, the default when absent; raises AttributeError when
the receiver is not a dict. -/
def pyGetD (o : JVal) (k : String) (d : JVal) : Except PyErr JVal :=
  match o with
  | .jobj fs => .ok ((lookupF fs k).getD d)
  | _ => .error .attributeError

/-- Python iteration (for e in x): lists yield elements, strings yield
one-character strings, dicts yield their keys, everything else raises
TypeError. -/
def pyIterElems : JVal → Except PyErr (List JVal)
  | .jarr xs => .ok xs
  | .jstr s => .ok (s.toList.map (fun c => .jstr (String.mk [c])))
  | .jobj fs => .ok (fs.map (fun p => .jstr p.1))
  | _ => .error .typeError

/-- Digits of a numeral string as a natural number; none when empty or a
non-digit appears. -/
def digitsVal : List Char → Option ℕ
  | [] => none
  | cs => go cs 0
where
  go : List Char → ℕ → Option ℕ
  | [], acc => some acc
  | c :: rest, acc =>
      if c.isDigit then go rest (acc * 10 + (c.toNat - 48)) else none

/-- Model of the Python int(str) parser: optional sign then digits. -/
def parseIntStr (s : String) : Option ℤ :=
  match s.toList with
  | '-' :: rest => (digitsVal rest).map (fun n => -(n : ℤ))
  | '+' :: rest => (digitsVal rest).map (fun n => (n : ℤ))
  | cs => (digitsVal cs).map (fun n => (n : ℤ))

/-- Split a digit run into leading digits and the remainder. -/
def spanDigits : List Char → List Char × List Char
  | [] => ([], [])
  | c :: rest =>
      if c.isDigit then
        let p := spanDigits rest
        (c :: p.1, p.2)
      else ([], c :: rest)

/-- Mantissa and fractional length of an unsigned decimal numeral,
accepting d+, d+.d*, .d+ forms; none otherwise. -/
def parseMantissa (cs : List Char) : Option (ℕ × ℕ) :=
  let p := spanDigits cs
  match p.2 with
  | [] => (digitsVal p.1).map (fun n => (n, 0))
  | '.' :: rest =>
      let f := spanDigits rest
      match f.2 with
      | [] =>
          match p.1, f.1 with
          | [], [] => none
          | _, _ =>
              (digitsVal (p.1 ++ f.1 ++ ['0'])).map
                (fun n => (n / 10, f.1.length))
      | _ => none
  | _ => none

/-- Split off an optional trailing e / E exponent with optional sign,
returning the mantissa characters and the exponent (0 when absent, none
when malformed). -/
def splitExponent : List Char → List Char × Option ℤ
  | [] => ([], some 0)
  | c :: rest =>
      if c == 'e' || c == 'E' then
        match rest with
        | '-' :: ds => ([], (digitsVal ds).map (fun n => -(n : ℤ)))
        | '+' :: ds => ([], (digitsVal ds).map (fun n => (n : ℤ)))
        | ds => ([], (digitsVal ds).map (fun n => (n : ℤ)))
      else
        let p := splitExponent rest
        (c :: p.1, p.2)

/-- Model of the Python float(str) parser: optional sign, decimal
mantissa, optional e-exponent. Returns the exact rational value. -/
def parseFloatStr (s : String) : Option ℚ :=
  let cs := s.toList
  let (sgn, body) :=
    match cs with
    | '-' :: rest => (true, rest)
    | '+' :: rest => (false, rest)
    | _ => (false, cs)
  let (mant, expo) := splitExponent body
  match parseMantissa mant, expo with
  | some (m, fracLen), some e =>
      let signedM : ℤ := if sgn then -(m : ℤ) else (m : ℤ)
      if 0 ≤ e then
        some (mkRat (signedM * ((10 : ℤ) ^ e.toNat)) ((10 : ℕ) ^ fracLen))
      else
        some (mkRat signedM ((10 : ℕ) ^ (fracLen + (-e).toNat)))
  | _, _ => none

/-- Truncation of a rational toward zero, the behaviour of Python
int(float). -/
def ratTrunc (q : ℚ) : ℤ := Int.tdiv q.num (q.den : ℤ)

/-- Python float(x): numbers pass through, bools become 0/1, numeral
strings parse, everything else raises (TypeError for non-strings,
ValueError for non-numeric strings). -/
def pyFloat : JVal → Except PyErr ℚ
  | .jnum q => .ok q
  | .jbool b => .ok (if b then 1 else 0)
  | .jstr s =>
      match parseFloatStr s with
      | some q => .ok q
      | none => .error .valueError
  | _ => .error .typeError

/-- Python int(x): ints pass through, floats truncate toward zero, bools
become 0/1, integer numeral strings parse, everything else raises. -/
def pyInt : JVal → Except PyErr ℤ
  | .jnum q => .ok (ratTrunc q)
  | .jbool b => .ok (if b then 1 else 0)
  | .jstr s =>
      match parseIntStr s with
      | some n => .ok n
      | none => .error .valueError
  | _ => .error .typeError

/-- Python min(a, b): returns a unless b is strictly smaller. -/
def pyMin {α : Type} [LinearOrder α] (a b : α) : α := if b < a then b else a

/-- Python max(a, b): returns a unless b is strictly larger. -/
def pyMax {α : Type} [LinearOrder α] (a b : α) : α := if a < b then b else a

/-- Python membership test (v in s) for a set of strings: strings test
by equality, other hashable scalars are simply absent, unhashable lists
and dicts raise TypeError. -/
def setContains (enum : List String) : JVal → Except PyErr Bool
  | .jstr s => .ok (enum.contains s)
  | .jarr _ => .error .typeError
  | .jobj _ => .error .typeError
  | _ => .ok false

/-- The allowed body parts of BRUNO_SCHEMA. -/
def partsList : List String :=
  ["tail", "head", "left_ear", "right_ear", "left_eye", "right_eye",
   "chest", "back", "left_leg", "right_leg"]

/-- The allowed effect modes of BRUNO_SCHEMA. -/
def modesList : List String := ["on", "off", "blink", "pulse", "wag", "chase"]

/-- The FALLBACK_PLAN constant of bruno_stage3_bridge.py. Note that its
single effect carries hz and duration_ms but no duty key. -/
def FALLBACK_PLAN : JVal :=
  .jobj [("intent", .jstr "EMOTE_OR_ACTION"),
         ("effects", .jarr [
            .jobj [("part", .jstr "tail"), ("mode", .jstr "wag"),
                   ("hz", .jnum 6), ("duration_ms", .jnum 1500)]])]

/-- Field-level schema conditions on one effect: part and mode present,
strings in their enumerations; hz, duty, duration_ms, when present,
numbers within declared bounds (duration_ms an integer). -/
def effectFieldsOK : JVal → Bool
  | .jobj fs =>
      (match lookupF fs "part" with
       | some (.jstr s) => partsList.contains s
       | _ => false) &&
      (match lookupF fs "mode" with
       | some (.jstr s) => modesList.contains s
       | _ => false) &&
      (match lookupF fs "hz" with
       | none => true
       | some (.jnum q) => decide (mkRat 1 10 ≤ q) && decide (q ≤ 30)
       | some _ => false) &&
      (match lookupF fs "duty" with
       | none => true
       | some (.jnum q) => decide (0 ≤ q) && decide (q ≤ 1)
       | some _ => false) &&
      (match lookupF fs "duration_ms" with
       | none => true
       | some (.jnum q) => (q.den == 1) && decide (50 ≤ q) && decide (q ≤ 60000)
       | some _ => false)
  | _ => false

/-- The additionalProperties: false condition of the effect schema. -/
def effectKeysOK : JVal → Bool
  | .jobj fs =>
      fs.all (fun kv =>
        kv.1 == "part" || kv.1 == "mode" || kv.1 == "hz" ||
        kv.1 == "duty" || kv.1 == "duration_ms")
  | _ => false

/-- Full item check of the effect schema. -/
def effectSchemaOK (e : JVal) : Bool := effectFieldsOK e && effectKeysOK e

/-- Decision procedure for jsonschema validate(instance, BRUNO_SCHEMA):
object with exactly the intent/effects keys, intent a string, effects an
array of 1 to 5 schema-valid effect objects. -/
def schemaValid : JVal → Bool
  | .jobj fs =>
      (match lookupF fs "intent" with
       | some (.jstr _) => true
       | _ => false) &&
      (match lookupF fs "effects" with
       | some (.jarr xs) =>
           decide (1 ≤ xs.length) && decide (xs.length ≤ 5) &&
           xs.all effectSchemaOK
       | _ => false) &&
      fs.all (fun kv => kv.1 == "intent" || kv.1 == "effects")
  | _ => false

/-- One enumerated field of the repair loop, e.g.
part = e.get("part", "tail"); part = part if part in parts else "tail". -/
def fixEnum (e : JVal) (key dflt : String) (enum : List String) :
    Except PyErr JVal :=
  match pyGetD e key (.jstr dflt) with
  | .error err => .error err
  | .ok v =>
      match setContains enum v with
      | .error err => .error err
      | .ok b => .ok (if b then v else .jstr dflt)

/-- One clamped float field of the repair loop, e.g.
hz = float(e.get("hz", 6)); hz = min(max(hz, 0.1), 30). -/
def fixNum (e : JVal) (key : String) (dflt lo hi : ℚ) : Except PyErr ℚ :=
  match pyGetD e key (.jnum dflt) with
  | .error err => .error err
  | .ok v =>
      match pyFloat v with
      | .error err => .error err
      | .ok q => .ok (pyMin (pyMax q lo) hi)

/-- The clamped integer field of the repair loop:
dur = int(e.get("duration_ms", 1500)); dur = min(max(dur, 50), 60000). -/
def fixInt (e : JVal) (key : String) (dflt : JVal) (lo hi : ℤ) :
    Except PyErr ℤ :=
  match pyGetD e key dflt with
  | .error err => .error err
  | .ok v =>
      match pyInt v with
      | .error err => .error err
      | .ok n => .ok (pyMin (pyMax n lo) hi)

/-- The body of the repair loop of validate_or_fix: one effect entry is
rebuilt field by field with enum substitution and numeric clamping. -/
def fixEffect (e : JVal) : Except PyErr JVal :=
  match fixEnum e "part" "tail" partsList with
  | .error err => .error err
  | .ok part =>
  match fixEnum e "mode" "wag" modesList with
  | .error err => .error err
  | .ok mode =>
  match fixNum e "hz" 6 (mkRat 1 10) 30 with
  | .error err => .error err
  | .ok hz =>
  match fixNum e "duty" (mkRat 1 2) 0 1 with
  | .error err => .error err
  | .ok duty =>
  match fixInt e "duration_ms" (.jnum 1500) 50 60000 with
  | .error err => .error err
  | .ok dur =>
      .ok (.jobj [("part", part), ("mode", mode), ("hz", .jnum hz),
                  ("duty", .jnum duty), ("duration_ms", .jnum (dur : ℚ))])

/-- Sequencing of a fallible map over a list, as the Python for loop
propagates the first exception. -/
def mapE (f : JVal → Except PyErr JVal) : List JVal → Except PyErr (List JVal)
  | [] => .ok []
  | x :: xs =>
      match f x with
      | .error err => .error err
      | .ok y =>
          match mapE f xs with
          | .error err => .error err
          | .ok ys => .ok (y :: ys)

/-- The except branch of validate_or_fix: build a fresh plan with the
input intent (defaulted), repair each effect entry, and fall back to
FALLBACK_PLAN when the rebuilt effects list is empty. -/
def repairPlan (p : JVal) : Except PyErr JVal :=
  match pyGetD p "intent" (.jstr "EMOTE_OR_ACTION") with
  | .error err => .error err
  | .ok intent =>
  match pyGetD p "effects" (.jarr []) with
  | .error err => .error err
  | .ok raw =>
  match pyIterElems raw with
  | .error err => .error err
  | .ok elems =>
  match mapE fixEffect elems with
  | .error err => .error err
  | .ok es =>
      .ok (if es.isEmpty then FALLBACK_PLAN
           else .jobj [("intent", intent), ("effects", .jarr es)])

/-- validate_or_fix of bruno_stage3_bridge.py: return the plan unchanged
when it satisfies BRUNO_SCHEMA, otherwise repair it field by field. -/
def validate_or_fix (p : JVal) : Except PyErr JVal :=
  if schemaValid p then .ok p else repairPlan p

/-- Number of entries of the effects array of a plan, 0 when the plan is
not an object or effects is absent or not an array. -/
def effectsLen (p : JVal) : ℕ :=
  match p with
  | .jobj fs =>
      match lookupF fs "effects" with
      | some (.jarr xs) => xs.length
      | _ => 0
  | _ => 0

/-- The fallback Plan literal as the spec writes it, with a populated
duty field; kept separate so it can be compared with the FALLBACK_PLAN
constant actually present in the code. -/
def specFallbackPlan : JVal :=
  .jobj [("intent", .jstr "EMOTE_OR_ACTION"),
         ("effects", .jarr [
            .jobj [("part", .jstr "tail"), ("mode", .jstr "wag"),
                   ("hz", .jnum 6), ("duty", .jnum (mkRat 1 2)),
                   ("duration_ms", .jnum 1500)]])]

/-- Shape of every effect object built by the repair loop: exactly the
five expected keys in construction order, enumerated part and mode,
clamped hz and duty, integral clamped duration. -/
def FixedEffect (f : JVal) : Prop :=
  ∃ ps ms h d n,
    f = .jobj [("part", .jstr ps), ("mode", .jstr ms), ("hz", .jnum h),
               ("duty", .jnum d), ("duration_ms", .jnum ((n : ℤ) : ℚ))] ∧
    partsList.contains ps = true ∧ modesList.contains ms = true ∧
    mkRat 1 10 ≤ h ∧ h ≤ 30 ∧ 0 ≤ d ∧ d ≤ 1 ∧ (50 : ℤ) ≤ n ∧ n ≤ 60000

/-- Outcome of the requests.post call inside ask_llm: the request itself
can raise (network failure or timeout), or produce a response with an
ok or error HTTP status and a body that either is or is not valid JSON. -/
inductive LLMResponse where
  | netFail
  | resp (statusOk : Bool) (body : Option JVal)

/-- Python s.strip() on the value: trims surrounding whitespace of a
string, raises AttributeError on any non-string. -/
def pyStripWs (v : JVal) : Except PyErr String :=
  match v with
  | .jstr s =>
      .ok (String.mk
        (((s.toList.dropWhile Char.isWhitespace).reverse.dropWhile
            Char.isWhitespace).reverse))
  | _ => .error .attributeError

/-- The content extraction of ask_llm:
r.json().get("message", {}).get("content", "").strip(). -/
def extractContent (body : JVal) : Except PyErr String :=
  match pyGetD body "message" (.jobj []) with
  | .error e => .error e
  | .ok msg =>
      match pyGetD msg "content" (.jstr "") with
      | .error e => .error e
      | .ok c => pyStripWs c

/-- ask_llm of bruno_stage3_bridge.py, with the HTTP exchange made an
explicit input and json.loads an explicit parsing oracle. The request
may raise; raise_for_status raises on an error status; r.json() raises
on a non-JSON body; only the final json.loads(content) is guarded by a
try/except returning FALLBACK_PLAN. -/
def ask_llm (loads : String → Option JVal) : LLMResponse → Except PyErr JVal
  | .netFail => .error .requestError
  | .resp statusOk body =>
      if statusOk then
        match body with
        | none => .error .jsonDecodeError
        | some b =>
            match extractContent b with
            | .error e => .error e
            | .ok s =>
                match loads s with
                | some plan => .ok plan
                | none => .ok FALLBACK_PLAN
      else .error .httpError

/-- The WAKE_WORDS tuple of bruno_stage3_bridge.py, in source order. -/
def WAKE_WORDS : List String :=
  ["hey bruno", "hi bruno", "okay bruno", "tommy", "charlie", "bruno"]

/-- Python text.lower(), character by character (exact on ASCII). -/
def pyLower (s : String) : String := String.mk (s.toList.map Char.toLower)

/-- Substring occurrence test, the Python (pat in s) operator. -/
def subOcc (pat : List Char) : List Char → Bool
  | [] => pat.isEmpty
  | c :: rest => pat.isPrefixOf (c :: rest) || subOcc pat rest

/-- contains_wake of bruno_stage3_bridge.py: the lowercased text holds
some wake phrase as a substring. -/
def contains_wake (text : String) : Bool :=
  WAKE_WORDS.any (fun w => subOcc w.toList (pyLower text).toList)

/-- One left-to-right non-overlapping replacement pass, the semantics of
Python str.replace; the fuel argument only bounds the recursion and a
start value of the subject length always suffices. -/
def replaceAllF : ℕ → List Char → List Char → List Char → List Char
  | 0, _, _, s => s
  | _ + 1, _, _, [] => []
  | fuel + 1, pat, repl, c :: rest =>
      if !pat.isEmpty && pat.isPrefixOf (c :: rest) then
        repl ++ replaceAllF fuel pat repl (List.drop pat.length (c :: rest))
      else c :: replaceAllF fuel pat repl rest

/-- Python s.replace(pat, repl). -/
def pyReplace (s pat repl : String) : String :=
  String.mk (replaceAllF s.toList.length pat.toList repl.toList s.toList)

/-- The characters of the strip(" ,.?!") call of strip_wake. -/
def stripSet : List Char := [' ', ',', '.', '?', '!']

/-- Python s.strip(chars): removes leading and trailing characters that
belong to the given set. -/
def pyStripChars (s : String) (chars : List Char) : String :=
  String.mk
    (((s.toList.dropWhile (fun c => chars.contains c)).reverse.dropWhile
        (fun c => chars.contains c)).reverse)

/-- strip_wake of bruno_stage3_bridge.py: lowercase, then one replace
pass per wake phrase in tuple order, then trim punctuation and spaces. -/
def strip_wake (text : String) : String :=
  let t := pyLower text
  let t := WAKE_WORDS.foldl (fun acc w => pyReplace acc w "") t
  pyStripChars t stripSet

/-- Exact rational subtraction built from mkRat so that it evaluates
inside the kernel; equal to ordinary subtraction by qsub_eq below. It
models the Python float subtraction of timestamps. -/
def qsub (a b : ℚ) : ℚ :=
  mkRat (a.num * (b.den : ℤ) - b.num * (a.den : ℤ)) (a.den * b.den)

/-- Exact rational division built from mkRat so that it evaluates inside
the kernel; models the Python float division of the configuration
constants. -/
def qdiv (a b : ℚ) : ℚ :=
  if 0 ≤ b.num then mkRat (a.num * (b.den : ℤ)) (a.den * b.num.toNat)
  else mkRat (-(a.num * (b.den : ℤ))) (a.den * (-b.num).toNat)

/-- The WAKE_DEBOUNCE_S constant of bruno_stage3_bridge.py. -/
def WAKE_DEBOUNCE_S : ℚ := 2

/-- One iteration of the wake phase of the main loop of
bruno_stage3_bridge.py, given the stored last_wake_ts, the recognized
text and the current time: a non-wake text is skipped, a wake text
inside the debounce window is skipped, otherwise the wake is accepted
and last_wake_ts is set to now. Returns (accepted, new last_wake_ts). -/
def wakeStep (lastWake : ℚ) (text : String) (now : ℚ) : Bool × ℚ :=
  if contains_wake text = false then (false, lastWake)
  else if qsub now lastWake < WAKE_DEBOUNCE_S then (false, lastWake)
  else (true, now)

/-- One audio frame as the endpointing loop sees it: the time observed
during its iteration and the root-mean-square energy of its samples. -/
structure Frame where
  t : ℚ
  rms : ℚ
deriving DecidableEq

/-- Why the capture loop of record_utterance stopped. -/
inductive StopReason where
  | silenceStop
  | maxStop
  | emptyStop
deriving DecidableEq

/-- UTT_MIN_S of bruno_stage3_bridge.py. -/
def UTT_MIN_S : ℚ := mkRat 3 2

/-- UTT_MAX_S of bruno_stage3_bridge.py. -/
def UTT_MAX_S : ℚ := 8

/-- ENERGY_THRESH of bruno_stage3_bridge.py. -/
def ENERGY_THRESH : ℚ := 100

/-- FRAME_MS of bruno_stage3_bridge.py. -/
def FRAME_MS : ℚ := 30

/-- SILENCE_HOLD_S of bruno_stage3_bridge.py. -/
def SILENCE_HOLD_S : ℚ := mkRat 7 10

/-- silence_frames_needed = int(silence_hold / (frame_ms / 1000.0)). -/
def silence_frames_needed (silence_hold frame_ms : ℚ) : ℤ :=
  ratTrunc (qdiv silence_hold (qdiv frame_ms 1000))

/-- The capture loop of record_utterance, driven by the incoming frame
sequence (an exhausted sequence models the queue.Empty timeout). Every
processed frame is appended to the buffer; while elapsed time is below
min_s the silence logic is skipped; afterwards the consecutive-silence
counter resets on speech, increments on silence, and reaching
silence_frames_needed stops the capture; elapsed time above max_s stops
it unconditionally. Returns how many frames were consumed and why the
loop stopped. -/
def recLoop (minS maxS energy : ℚ) (need : ℤ) (start : ℚ) :
    List Frame → ℕ → ℕ × StopReason
  | [], _ => (0, .emptyStop)
  | f :: rest, silentRun =>
      let speaking := energy < f.rms
      if qsub f.t start < minS then
        if maxS < qsub f.t start then (1, .maxStop)
        else
          let r := recLoop minS maxS energy need start rest silentRun
          (r.1 + 1, r.2)
      else
        let sr := if speaking then 0 else silentRun + 1
        if need ≤ (sr : ℤ) then (1, .silenceStop)
        else if maxS < qsub f.t start then (1, .maxStop)
        else
          let r := recLoop minS maxS energy need start rest sr
          (r.1 + 1, r.2)

/-- Explicit store for the mutation analysis of validate_or_fix: the
caller's plan object and the effects list of the fresh fixed plan under
construction. -/
structure VSt where
  plan : JVal
  acc : List JVal
deriving DecidableEq

/-- A plan.get(key, default) read against the store: reads the plan
cell and leaves the store unchanged, as the read-only dict.get does. -/
def stGet (k : String) (d : JVal) (st : VSt) : Except PyErr (VSt × JVal) :=
  match pyGetD st.plan k d with
  | .error e => .error e
  | .ok v => .ok (st, v)

/-- The fixed["effects"].append(...) write against the store: mutates
only the accumulator cell of the freshly built plan. -/
def stAppend (e : JVal) (st : VSt) : VSt := { st with acc := st.acc ++ [e] }

/-- The repair loop of validate_or_fix against the store: each input
entry is rebuilt by fixEffect and appended to the fresh effects list. -/
def repairLoopSt (elems : List JVal) (st : VSt) : Except PyErr VSt :=
  match elems with
  | [] => .ok st
  | e :: rest =>
      match fixEffect e with
      | .error err => .error err
      | .ok f => repairLoopSt rest (stAppend f st)

/-- validate_or_fix with every operation on the caller's plan object
threaded through the explicit store, so that the absence of mutation of
the argument becomes a provable frame property rather than a modelling
convention. Returns the final store together with the returned plan. -/
def validate_or_fix_st (st : VSt) : Except PyErr (VSt × JVal) :=
  if schemaValid st.plan then .ok (st, st.plan)
  else
    match stGet "intent" (.jstr "EMOTE_OR_ACTION") st with
    | .error e => .error e
    | .ok (st1, intent) =>
    match stGet "effects" (.jarr []) st1 with
    | .error e => .error e
    | .ok (st2, raw) =>
    match pyIterElems raw with
    | .error e => .error e
    | .ok elems =>
    match repairLoopSt elems { st2 with acc := [] } with
    | .error e => .error e
    | .ok st3 =>
        .ok (st3, if st3.acc.isEmpty then FALLBACK_PLAN
                  else .jobj [("intent", intent), ("effects", .jarr st3.acc)])

/-! Bridge lemmas between the kernel-evaluating arithmetic used in the
definitions and the ordinary Mathlib operations used in statements. -/

theorem qsub_eq (a b : ℚ) : qsub a b = a - b := by
  have ha : ((a.den : ℚ)) ≠ 0 := by exact_mod_cast a.den_nz
  have hb : ((b.den : ℚ)) ≠ 0 := by exact_mod_cast b.den_nz
  rw [qsub, Rat.mkRat_eq_div]
  conv_rhs => rw [← Rat.num_div_den a, ← Rat.num_div_den b]
  rw [div_sub_div _ _ ha hb]
  push_cast
  ring_nf

theorem pyMin_eq {α : Type} [LinearOrder α] (a b : α) : pyMin a b = min a b := by
  unfold pyMin
  rcases lt_or_le b a with h | h
  · simp [h, min_eq_right h.le]
  · simp [not_lt.mpr h, min_eq_left h]

theorem pyMax_eq {α : Type} [LinearOrder α] (a b : α) : pyMax a b = max a b := by
  unfold pyMax
  rcases lt_or_le a b with h | h
  · simp [h, max_eq_right h.le]
  · simp [not_lt.mpr h, max_eq_left h]

theorem clamp_mem {α : Type} [LinearOrder α] (q lo hi : α) (h : lo ≤ hi) :
    lo ≤ pyMin (pyMax q lo) hi ∧ pyMin (pyMax q lo) hi ≤ hi := by
  rw [pyMin_eq, pyMax_eq]
  exact ⟨le_min (le_max_right q lo) h, min_le_right _ _⟩

theorem clamp_id {α : Type} [LinearOrder α] (q lo hi : α) (h1 : lo ≤ q)
    (h2 : q ≤ hi) : pyMin (pyMax q lo) hi = q := by
  rw [pyMin_eq, pyMax_eq, max_eq_left h1, min_eq_left h2]

/-- C8: on input with intent X and one effect of unknown part nose,
unknown mode spin and hz 999, the validator preserves the intent,
substitutes tail and wag, clamps hz to 30 and populates duty and
duration_ms with their defaults 0.5 and 1500. -/
theorem validator_c8_scenario :
    validate_or_fix
      (.jobj [("intent", .jstr "X"),
              ("effects", .jarr [
                 .jobj [("part", .jstr "nose"), ("mode", .jstr "spin"),
                        ("hz", .jnum 999)]])])
    = .ok (.jobj [("intent", .jstr "X"),
              ("effects", .jarr [
                 .jobj [("part", .jstr "tail"), ("mode", .jstr "wag"),
                        ("hz", .jnum 30), ("duty", .jnum (mkRat 1 2)),
                        ("duration_ms", .jnum 1500)]])]) := by decide

/-- C9 counterexample: strip_wake can output a string that still holds a
wake phrase, because each replacement is a single left-to-right pass and
removing one occurrence can splice a new one together; on input
brbrunouno the removal of the inner bruno leaves exactly bruno. -/
theorem strip_wake_counterexample :
    strip_wake "brbrunouno" = "bruno" ∧
    contains_wake (strip_wake "brbrunouno") = true := by decide

/-- C9 amended: strip_wake removes the existing wake-phrase occurrences
pass by pass and trims surrounding punctuation and whitespace, and the
scenario of the claim holds: on hey bruno wag your tail it returns wag
your tail (the general no-wake-substring property fails, see the
counterexample). -/
theorem strip_wake_amended :
    strip_wake "hey bruno wag your tail" = "wag your tail" ∧
    strip_wake "okay bruno, sit!" = "sit" := by decide

/-- C4 counterexample: on input with an empty effects array the
validator does return the FALLBACK_PLAN constant, but that constant is
not the plan literal written in the claim: the duty key is absent from
the fallback effect in the code. -/
theorem fallback_counterexample :
    validate_or_fix (.jobj [("effects", .jarr [])]) = .ok FALLBACK_PLAN ∧
    FALLBACK_PLAN ≠ specFallbackPlan := by decide

/-- C4 amended: for every input object whose effects key is absent or
holds an empty array, the validator returns the fixed FALLBACK_PLAN of
the code, whose single effect carries part tail, mode wag, hz 6 and
duration_ms 1500 and leaves duty unpopulated. (An effects entry holding
a non-iterable value raises TypeError instead.) -/
theorem fallback_amended :
    ∀ fs, (lookupF fs "effects" = none ∨ lookupF fs "effects" = some (.jarr [])) →
    validate_or_fix (.jobj fs) = .ok FALLBACK_PLAN := by
  intro fs h
  have hs : schemaValid (.jobj fs) = false := by
    rcases h with h | h <;> simp [schemaValid, h]
  rcases h with h | h <;>
    simp [validate_or_fix, hs, repairPlan, pyGetD, h, pyIterElems, mapE]

/-- C4 witness: the amended statement applied to the concrete input of
the claim scenario. -/
theorem fallback_amended_witness :
    validate_or_fix (.jobj [("intent", .jstr "X"), ("effects", .jarr [])])
      = .ok FALLBACK_PLAN :=
  fallback_amended _ (Or.inr (by decide))

/-- C6: when a wake text is accepted at time t1, the stored timestamp
becomes t1; a second wake text less than the debounce window after t1 is
rejected and leaves the timestamp unchanged; a third wake text at least
the debounce window after t1 is accepted again. -/
theorem wake_debounce (lastWake t1 t2 t3 : ℚ) (s1 s2 s3 : String)
    (h2 : contains_wake s2 = true) (h3 : contains_wake s3 = true)
    (hacc : (wakeStep lastWake s1 t1).1 = true)
    (hclose : t2 - t1 < WAKE_DEBOUNCE_S)
    (hfar : WAKE_DEBOUNCE_S ≤ t3 - t1) :
    (wakeStep lastWake s1 t1).2 = t1 ∧
    wakeStep t1 s2 t2 = (false, t1) ∧
    (wakeStep t1 s3 t3).1 = true := by
  refine ⟨?_, ?_, ?_⟩
  · unfold wakeStep at hacc ⊢
    by_cases hc : contains_wake s1 = false
    · simp [hc] at hacc
    · by_cases hd : qsub t1 lastWake < WAKE_DEBOUNCE_S
      · simp [hc, hd] at hacc
      · simp [hc, hd]
  · unfold wakeStep
    rw [qsub_eq]
    simp [h2, hclose]
  · unfold wakeStep
    rw [qsub_eq]
    simp [h3, not_lt.mpr hfar]

/-- C6 witness: the debounce theorem applied at stored time 0, a first
accepted wake at 100, a second wake at 101 (rejected, window 2.0) and a
third at 103 (accepted). -/
theorem wake_debounce_witness :
    (wakeStep 0 "hey bruno" 100).2 = 100 ∧
    wakeStep 100 "hey bruno" 101 = (false, 100) ∧
    (wakeStep 100 "hey bruno" 103).1 = true :=
  wake_debounce 0 100 101 103 "hey bruno" "hey bruno" "hey bruno"
    (by decide) (by decide) (by decide)
    (by norm_num [WAKE_DEBOUNCE_S]) (by norm_num [WAKE_DEBOUNCE_S])

/-- C5 counterexample: a planner transport failure is not mapped to the
fallback Plan; the exception of requests.post propagates out of ask_llm
(and the steady-state loop of main has no handler for it). -/
theorem ask_llm_counterexample :
    ask_llm (fun _ => none) .netFail = .error .requestError := by decide

/-- C5 amended: only a non-parseable planner message content is replaced
by the fixed fallback Plan inside ask_llm; a raised transport error, an
HTTP error status and a non-JSON response body all propagate out of
ask_llm as exceptions, and a parseable content is returned as is. -/
theorem ask_llm_amended (loads : String → Option JVal) (b : JVal) (s : String) :
    ask_llm loads .netFail = .error .requestError ∧
    (∀ body, ask_llm loads (.resp false body) = .error .httpError) ∧
    ask_llm loads (.resp true none) = .error .jsonDecodeError ∧
    (extractContent b = .ok s → loads s = none →
      ask_llm loads (.resp true (some b)) = .ok FALLBACK_PLAN) ∧
    (∀ plan, extractContent b = .ok s → loads s = some plan →
      ask_llm loads (.resp true (some b)) = .ok plan) := by
  refine ⟨rfl, fun body => rfl, rfl, fun hc hl => ?_, fun plan hc hl => ?_⟩
  · simp [ask_llm, hc, hl]
  · simp [ask_llm, hc, hl]

/-- C5 witness: the amended statement applied to a successful HTTP
exchange whose message content does not parse as JSON. -/
theorem ask_llm_amended_witness :
    ask_llm (fun _ => none)
      (.resp true (some (.jobj [("message", .jobj [("content", .jstr "hi")])])))
      = .ok FALLBACK_PLAN :=
  (ask_llm_amended (fun _ => none)
      (.jobj [("message", .jobj [("content", .jstr "hi")])]) "hi").2.2.2.1
    (by decide) rfl

theorem stGet_ok (k : String) (d : JVal) (st : VSt) (pr : VSt × JVal)
    (h : stGet k d st = .ok pr) : pr.1 = st := by
  unfold stGet at h
  cases hp : pyGetD st.plan k d <;> rw [hp] at h
  · exact absurd h (by simp)
  · cases h
    rfl

theorem repairLoopSt_plan :
    ∀ elems st st3, repairLoopSt elems st = .ok st3 → st3.plan = st.plan := by
  intro elems
  induction elems with
  | nil =>
      intro st st3 h
      unfold repairLoopSt at h
      cases h
      rfl
  | cons e rest ih =>
      intro st st3 h
      unfold repairLoopSt at h
      cases hf : fixEffect e <;> simp only [hf] at h
      · exact absurd h (by simp)
      · rename_i f
        have := ih (stAppend f st) st3 h
        simpa [stAppend] using this

/-- C10: validate_or_fix never mutates its argument: every operation the
source performs on the caller's plan is a read, the repaired plan is
assembled in a fresh object, and so the plan cell of the store is the
same after the call as before it. -/
theorem validator_no_mutation :
    ∀ st out, validate_or_fix_st st = .ok out → out.1.plan = st.plan := by
  intro st out h
  unfold validate_or_fix_st at h
  by_cases hs : schemaValid st.plan
  · rw [if_pos hs] at h
    injection h with h5
    rw [← h5]
  · rw [if_neg hs] at h
    cases h1 : stGet "intent" (.jstr "EMOTE_OR_ACTION") st with
    | error e => simp only [h1] at h; exact absurd h (by simp)
    | ok pr =>
      obtain ⟨st1, intent⟩ := pr
      simp only [h1] at h
      cases h2 : stGet "effects" (.jarr []) st1 with
      | error e => simp only [h2] at h; exact absurd h (by simp)
      | ok pr2 =>
        obtain ⟨st2, raw⟩ := pr2
        simp only [h2] at h
        cases h3 : pyIterElems raw with
        | error e => simp only [h3] at h; exact absurd h (by simp)
        | ok elems =>
          simp only [h3] at h
          cases h4 : repairLoopSt elems { st2 with acc := [] } with
          | error e => simp only [h4] at h; exact absurd h (by simp)
          | ok st3 =>
            simp only [h4] at h
            injection h with h5
            rw [← h5]
            have e0 := repairLoopSt_plan _ _ _ h4
            have e4 : st3.plan = st2.plan := e0
            have e2 : st2 = st1 := stGet_ok _ _ _ _ h2
            have e1 : st1 = st := stGet_ok _ _ _ _ h1
            exact e4.trans (congrArg VSt.plan (e2.trans e1))

/-- C10 witness: the frame theorem applied to a concrete store. -/
theorem validator_no_mutation_witness :
    ((⟨.jobj [("effects", .jarr [])], []⟩ : VSt),
      FALLBACK_PLAN).1.plan = (⟨.jobj [("effects", .jarr [])], []⟩ : VSt).plan :=
  validator_no_mutation _ _ (by decide)

theorem recLoop_speech_aux (minS maxS energy : ℚ) (need : ℤ) (start : ℚ)
    (hneed : 1 ≤ need) :
    ∀ frames, (∀ f ∈ frames, energy < f.rms) →
    (recLoop minS maxS energy need start frames 0).2 ≠ .silenceStop := by
  intro frames
  induction frames with
  | nil => intro _; simp [recLoop]
  | cons f rest ih =>
    intro hall
    have hf : energy < f.rms := hall f (by simp)
    have hrest : ∀ g ∈ rest, energy < g.rms := fun g hg => hall g (by simp [hg])
    simp only [recLoop]
    by_cases h1 : qsub f.t start < minS
    · rw [if_pos h1]
      by_cases h2 : maxS < qsub f.t start
      · rw [if_pos h2]; simp
      · rw [if_neg h2]; simpa using ih hrest
    · rw [if_neg h1]
      have hcond : ¬(need ≤ ((if energy < f.rms then 0 else 0 + 1 : ℕ) : ℤ)) := by
        rw [if_pos hf]
        push_cast
        omega
      rw [if_neg hcond]
      by_cases h2 : maxS < qsub f.t start
      · rw [if_pos h2]; simp
      · rw [if_neg h2]
        rw [if_pos hf]
        simpa using ih hrest

theorem recLoop_ceiling_aux (minS maxS energy : ℚ) (need : ℤ) (start : ℚ) :
    ∀ frames sr j f, j + 1 < (recLoop minS maxS energy need start frames sr).1 →
    frames.get? j = some f → f.t - start ≤ maxS := by
  intro frames
  induction frames with
  | nil => intro sr j f h _; simp [recLoop] at h
  | cons g rest ih =>
    intro sr j f h hg
    simp only [recLoop] at h
    by_cases h1 : qsub g.t start < minS
    · rw [if_pos h1] at h
      by_cases h2 : maxS < qsub g.t start
      · rw [if_pos h2] at h; omega
      · rw [if_neg h2] at h
        cases j with
        | zero =>
            have hgf : g = f := by simpa using hg
            rw [← hgf, ← qsub_eq]
            exact not_lt.mp h2
        | succ j' =>
            simp only [List.get?] at hg
            exact ih sr j' f (by omega) hg
    · rw [if_neg h1] at h
      by_cases h2 : need ≤ ((if energy < g.rms then 0 else sr + 1 : ℕ) : ℤ)
      · rw [if_pos h2] at h; omega
      · rw [if_neg h2] at h
        by_cases h3 : maxS < qsub g.t start
        · rw [if_pos h3] at h; omega
        · rw [if_neg h3] at h
          cases j with
          | zero =>
              have hgf : g = f := by simpa using hg
              rw [← hgf, ← qsub_eq]
              exact not_lt.mp h3
          | succ j' =>
              simp only [List.get?] at hg
              exact ih (if energy < g.rms then 0 else sr + 1) j' f (by omega) hg

/-- C7: the endpointing loop never stops with the silence reason on an
utterance whose frames are all classified as speaking (for any positive
silence_frames_needed), and it stops once elapsed time exceeds max_s:
every frame past which the loop continues was observed at a time at most
max_s after the start. -/
theorem endpointing_floor_ceiling
    (minS maxS energy : ℚ) (need : ℤ) (start : ℚ) (frames : List Frame) :
    (1 ≤ need → (∀ f ∈ frames, energy < f.rms) →
      (recLoop minS maxS energy need start frames 0).2 ≠ .silenceStop) ∧
    (∀ sr j f, j + 1 < (recLoop minS maxS energy need start frames sr).1 →
      frames.get? j = some f → f.t - start ≤ maxS) :=
  ⟨fun hneed hall => recLoop_speech_aux minS maxS energy need start hneed frames hall,
   recLoop_ceiling_aux minS maxS energy need start frames⟩

/-- C7 witness: the endpointing theorem applied with the configuration
constants of the source, the derived silence_frames_needed value 23, and
two concrete all-speaking frames. -/
theorem endpointing_witness :
    (recLoop UTT_MIN_S UTT_MAX_S ENERGY_THRESH
        (silence_frames_needed SILENCE_HOLD_S FRAME_MS) 99
        [⟨100, 200⟩, ⟨101, 300⟩] 0).2 ≠ .silenceStop ∧
    (⟨100, 200⟩ : Frame).t - 99 ≤ UTT_MAX_S :=
  ⟨(endpointing_floor_ceiling UTT_MIN_S UTT_MAX_S ENERGY_THRESH
        (silence_frames_needed SILENCE_HOLD_S FRAME_MS) 99
        [⟨100, 200⟩, ⟨101, 300⟩]).1 (by decide) (by decide),
   (endpointing_floor_ceiling UTT_MIN_S UTT_MAX_S ENERGY_THRESH
        (silence_frames_needed SILENCE_HOLD_S FRAME_MS) 99
        [⟨100, 200⟩, ⟨101, 300⟩]).2 0 0 ⟨100, 200⟩ (by decide) (by decide)⟩

theorem ratTrunc_intCast (n : ℤ) : ratTrunc ((n : ℤ) : ℚ) = n := by
  unfold ratTrunc
  rw [Rat.num_intCast, Rat.den_intCast]
  simp [Int.tdiv_one]

theorem effectFieldsOK_build (ps ms : String) (h d : ℚ) (n : ℤ)
    (hps : partsList.contains ps = true) (hms : modesList.contains ms = true)
    (h1 : mkRat 1 10 ≤ h) (h2 : h ≤ 30) (h3 : 0 ≤ d) (h4 : d ≤ 1)
    (h5 : (50 : ℤ) ≤ n) (h6 : n ≤ 60000) :
    effectFieldsOK (.jobj [("part", .jstr ps), ("mode", .jstr ms),
      ("hz", .jnum h), ("duty", .jnum d),
      ("duration_ms", .jnum ((n : ℤ) : ℚ))]) = true := by
  have l1 : lookupF [("part", .jstr ps), ("mode", .jstr ms),
      ("hz", .jnum h), ("duty", .jnum d),
      ("duration_ms", .jnum ((n : ℤ) : ℚ))] "part" = some (.jstr ps) := rfl
  have l2 : lookupF [("part", .jstr ps), ("mode", .jstr ms),
      ("hz", .jnum h), ("duty", .jnum d),
      ("duration_ms", .jnum ((n : ℤ) : ℚ))] "mode" = some (.jstr ms) := rfl
  have l3 : lookupF [("part", .jstr ps), ("mode", .jstr ms),
      ("hz", .jnum h), ("duty", .jnum d),
      ("duration_ms", .jnum ((n : ℤ) : ℚ))] "hz" = some (.jnum h) := rfl
  have l4 : lookupF [("part", .jstr ps), ("mode", .jstr ms),
      ("hz", .jnum h), ("duty", .jnum d),
      ("duration_ms", .jnum ((n : ℤ) : ℚ))] "duty" = some (.jnum d) := rfl
  have l5 : lookupF [("part", .jstr ps), ("mode", .jstr ms),
      ("hz", .jnum h), ("duty", .jnum d),
      ("duration_ms", .jnum ((n : ℤ) : ℚ))] "duration_ms"
        = some (.jnum ((n : ℤ) : ℚ)) := rfl
  have c5 : (50 : ℚ) ≤ ((n : ℤ) : ℚ) := by exact_mod_cast h5
  have c6 : ((n : ℤ) : ℚ) ≤ 60000 := by exact_mod_cast h6
  simp only [effectFieldsOK, l1, l2, l3, l4, l5]
  simp [hps, hms, h1, h2, h3, h4, c5, c6, Rat.den_intCast]
  exact ⟨by simpa using hps, by simpa using hms⟩

theorem fixEnum_ok (e : JVal) (k d : String) (enum : List String) (v : JVal)
    (hd : enum.contains d = true) (h : fixEnum e k d enum = .ok v) :
    ∃ s, v = .jstr s ∧ enum.contains s = true := by
  unfold fixEnum at h
  cases hg : pyGetD e k (.jstr d) <;> simp only [hg] at h
  · exact absurd h (by simp)
  · rename_i v0
    cases hc : setContains enum v0 <;> simp only [hc] at h
    · exact absurd h (by simp)
    · rename_i b
      injection h with h
      cases b with
      | false =>
          refine ⟨d, ?_, hd⟩
          simpa using h.symm
      | true =>
          cases v0 <;> simp [setContains] at hc
          rename_i s
          refine ⟨s, by simpa using h.symm, by simpa using hc⟩

theorem fixNum_ok (e : JVal) (k : String) (dflt lo hi : ℚ) (hlh : lo ≤ hi)
    (q : ℚ) (h : fixNum e k dflt lo hi = .ok q) : lo ≤ q ∧ q ≤ hi := by
  unfold fixNum at h
  cases hg : pyGetD e k (.jnum dflt) <;> simp only [hg] at h
  · exact absurd h (by simp)
  · rename_i v
    cases hf : pyFloat v <;> simp only [hf] at h
    · exact absurd h (by simp)
    · rename_i q0
      injection h with h
      rw [← h]
      exact clamp_mem q0 lo hi hlh

theorem fixInt_ok (e : JVal) (k : String) (dflt : JVal) (lo hi : ℤ)
    (hlh : lo ≤ hi) (n : ℤ) (h : fixInt e k dflt lo hi = .ok n) :
    lo ≤ n ∧ n ≤ hi := by
  unfold fixInt at h
  cases hg : pyGetD e k dflt <;> simp only [hg] at h
  · exact absurd h (by simp)
  · rename_i v
    cases hf : pyInt v <;> simp only [hf] at h
    · exact absurd h (by simp)
    · rename_i n0
      injection h with h
      rw [← h]
      exact clamp_mem n0 lo hi hlh

theorem fixEffect_ok_parts (e f : JVal) (hok : fixEffect e = .ok f) :
    ∃ part mode hz duty dur,
      fixEnum e "part" "tail" partsList = .ok part ∧
      fixEnum e "mode" "wag" modesList = .ok mode ∧
      fixNum e "hz" 6 (mkRat 1 10) 30 = .ok hz ∧
      fixNum e "duty" (mkRat 1 2) 0 1 = .ok duty ∧
      fixInt e "duration_ms" (.jnum 1500) 50 60000 = .ok dur ∧
      f = .jobj [("part", part), ("mode", mode), ("hz", .jnum hz),
                 ("duty", .jnum duty), ("duration_ms", .jnum (dur : ℚ))] := by
  unfold fixEffect at hok
  cases h1 : fixEnum e "part" "tail" partsList <;> simp only [h1] at hok
  · exact absurd hok (by simp)
  rename_i part
  cases h2 : fixEnum e "mode" "wag" modesList <;> simp only [h2] at hok
  · exact absurd hok (by simp)
  rename_i mode
  cases h3 : fixNum e "hz" 6 (mkRat 1 10) 30 <;> simp only [h3] at hok
  · exact absurd hok (by simp)
  rename_i hz
  cases h4 : fixNum e "duty" (mkRat 1 2) 0 1 <;> simp only [h4] at hok
  · exact absurd hok (by simp)
  rename_i duty
  cases h5 : fixInt e "duration_ms" (.jnum 1500) 50 60000 <;> simp only [h5] at hok
  · exact absurd hok (by simp)
  rename_i dur
  injection hok with hok
  exact ⟨part, mode, hz, duty, dur, rfl, rfl, rfl, rfl, rfl, hok.symm⟩

theorem fixEffect_ok_fixed (e f : JVal) (hok : fixEffect e = .ok f) :
    FixedEffect f := by
  obtain ⟨part, mode, hz, duty, dur, e1, e2, e3, e4, e5, rfl⟩ :=
    fixEffect_ok_parts e f hok
  obtain ⟨ps, rfl, hps⟩ := fixEnum_ok e "part" "tail" partsList part (by decide) e1
  obtain ⟨ms, rfl, hms⟩ := fixEnum_ok e "mode" "wag" modesList mode (by decide) e2
  obtain ⟨hz1, hz2⟩ := fixNum_ok e "hz" 6 (mkRat 1 10) 30 (by decide) hz e3
  obtain ⟨d1, d2⟩ := fixNum_ok e "duty" (mkRat 1 2) 0 1 (by decide) duty e4
  obtain ⟨n1, n2⟩ := fixInt_ok e "duration_ms" (.jnum 1500) 50 60000 (by decide) dur e5
  exact ⟨ps, ms, hz, duty, dur, rfl, hps, hms, hz1, hz2, d1, d2, n1, n2⟩

theorem fixedEffect_fieldsOK (f : JVal) (hf : FixedEffect f) :
    effectFieldsOK f = true := by
  obtain ⟨ps, ms, h, d, n, rfl, hps, hms, h1, h2, h3, h4, h5, h6⟩ := hf
  exact effectFieldsOK_build ps ms h d n hps hms h1 h2 h3 h4 h5 h6

theorem fixedEffect_fix_id (f : JVal) (hf : FixedEffect f) :
    fixEffect f = .ok f := by
  obtain ⟨ps, ms, h, d, n, rfl, hps, hms, h1, h2, h3, h4, h5, h6⟩ := hf
  have g1 : pyGetD (.jobj [("part", .jstr ps), ("mode", .jstr ms),
      ("hz", .jnum h), ("duty", .jnum d), ("duration_ms", .jnum ((n : ℤ) : ℚ))])
      "part" (.jstr "tail") = .ok (.jstr ps) := rfl
  have g2 : pyGetD (.jobj [("part", .jstr ps), ("mode", .jstr ms),
      ("hz", .jnum h), ("duty", .jnum d), ("duration_ms", .jnum ((n : ℤ) : ℚ))])
      "mode" (.jstr "wag") = .ok (.jstr ms) := rfl
  have g3 : pyGetD (.jobj [("part", .jstr ps), ("mode", .jstr ms),
      ("hz", .jnum h), ("duty", .jnum d), ("duration_ms", .jnum ((n : ℤ) : ℚ))])
      "hz" (.jnum 6) = .ok (.jnum h) := rfl
  have g4 : pyGetD (.jobj [("part", .jstr ps), ("mode", .jstr ms),
      ("hz", .jnum h), ("duty", .jnum d), ("duration_ms", .jnum ((n : ℤ) : ℚ))])
      "duty" (.jnum (mkRat 1 2)) = .ok (.jnum d) := rfl
  have g5 : pyGetD (.jobj [("part", .jstr ps), ("mode", .jstr ms),
      ("hz", .jnum h), ("duty", .jnum d), ("duration_ms", .jnum ((n : ℤ) : ℚ))])
      "duration_ms" (.jnum 1500) = .ok (.jnum ((n : ℤ) : ℚ)) := rfl
  have e1 : fixEnum (.jobj [("part", .jstr ps), ("mode", .jstr ms),
      ("hz", .jnum h), ("duty", .jnum d), ("duration_ms", .jnum ((n : ℤ) : ℚ))])
      "part" "tail" partsList = .ok (.jstr ps) := by
    unfold fixEnum
    rw [g1]
    simp [setContains, show ps ∈ partsList from by simpa using hps]
  have e2 : fixEnum (.jobj [("part", .jstr ps), ("mode", .jstr ms),
      ("hz", .jnum h), ("duty", .jnum d), ("duration_ms", .jnum ((n : ℤ) : ℚ))])
      "mode" "wag" modesList = .ok (.jstr ms) := by
    unfold fixEnum
    rw [g2]
    simp [setContains, show ms ∈ modesList from by simpa using hms]
  have e3 : fixNum (.jobj [("part", .jstr ps), ("mode", .jstr ms),
      ("hz", .jnum h), ("duty", .jnum d), ("duration_ms", .jnum ((n : ℤ) : ℚ))])
      "hz" 6 (mkRat 1 10) 30 = .ok h := by
    unfold fixNum
    rw [g3]
    simp [pyFloat, clamp_id h (mkRat 1 10) 30 h1 h2]
  have e4 : fixNum (.jobj [("part", .jstr ps), ("mode", .jstr ms),
      ("hz", .jnum h), ("duty", .jnum d), ("duration_ms", .jnum ((n : ℤ) : ℚ))])
      "duty" (mkRat 1 2) 0 1 = .ok d := by
    unfold fixNum
    rw [g4]
    simp [pyFloat, clamp_id d 0 1 h3 h4]
  have e5 : fixInt (.jobj [("part", .jstr ps), ("mode", .jstr ms),
      ("hz", .jnum h), ("duty", .jnum d), ("duration_ms", .jnum ((n : ℤ) : ℚ))])
      "duration_ms" (.jnum 1500) 50 60000 = .ok n := by
    unfold fixInt
    rw [g5]
    simp [pyInt, ratTrunc_intCast, clamp_id n 50 60000 h5 h6]
  unfold fixEffect
  simp only [e1, e2, e3, e4, e5]

theorem mapE_length (g : JVal → Except PyErr JVal) :
    ∀ xs ys, mapE g xs = .ok ys → ys.length = xs.length := by
  intro xs
  induction xs with
  | nil =>
      intro ys h
      unfold mapE at h
      injection h with h
      rw [← h]
  | cons x xs ih =>
      intro ys h
      unfold mapE at h
      cases h1 : g x <;> simp only [h1] at h
      · exact absurd h (by simp)
      · rename_i y
        cases h2 : mapE g xs <;> simp only [h2] at h
        · exact absurd h (by simp)
        · rename_i ys0
          injection h with h
          rw [← h]
          simp [ih ys0 h2]

theorem mapE_mem (g : JVal → Except PyErr JVal) :
    ∀ xs ys, mapE g xs = .ok ys → ∀ y ∈ ys, ∃ x, x ∈ xs ∧ g x = .ok y := by
  intro xs
  induction xs with
  | nil =>
      intro ys h y hy
      unfold mapE at h
      injection h with h
      rw [← h] at hy
      simp at hy
  | cons x xs ih =>
      intro ys h y hy
      unfold mapE at h
      cases h1 : g x <;> simp only [h1] at h
      · exact absurd h (by simp)
      · rename_i y0
        cases h2 : mapE g xs <;> simp only [h2] at h
        · exact absurd h (by simp)
        · rename_i ys0
          injection h with h
          rw [← h] at hy
          rcases List.mem_cons.mp hy with rfl | hy0
          · exact ⟨x, by simp, h1⟩
          · obtain ⟨x0, hx0, hgx0⟩ := ih ys0 h2 y hy0
            exact ⟨x0, by simp [hx0], hgx0⟩

theorem mapE_id (g : JVal → Except PyErr JVal) :
    ∀ xs, (∀ x ∈ xs, g x = .ok x) → mapE g xs = .ok xs := by
  intro xs
  induction xs with
  | nil => intro _; rfl
  | cons x xs ih =>
      intro hall
      unfold mapE
      rw [hall x (by simp), ih (fun z hz => hall z (by simp [hz]))]

theorem pyGetD_ok_obj (p : JVal) (k : String) (d v : JVal)
    (h : pyGetD p k d = .ok v) : ∃ fs, p = .jobj fs := by
  cases p <;> first
    | exact ⟨_, rfl⟩
    | simp [pyGetD] at h

theorem iter_ok_cases (raw : JVal) (elems : List JVal)
    (h : pyIterElems raw = .ok elems) :
    raw = .jarr elems ∨ ∀ x ∈ elems, ∃ s, x = .jstr s := by
  cases raw with
  | jarr xs =>
      left
      simp [pyIterElems] at h
      rw [h]
  | jstr s =>
      right
      simp [pyIterElems] at h
      rw [← h]
      intro x hx
      simp [List.mem_map] at hx
      obtain ⟨c, _, hc⟩ := hx
      exact ⟨String.mk [c], hc.symm⟩
  | jobj fs =>
      right
      simp [pyIterElems] at h
      rw [← h]
      intro x hx
      simp [List.mem_map] at hx
      obtain ⟨a, ha, hc⟩ := hx
      exact ⟨a, hc.symm⟩
  | jnull => simp [pyIterElems] at h
  | jbool b => simp [pyIterElems] at h
  | jnum q => simp [pyIterElems] at h

theorem fixEffect_jstr (s : String) :
    fixEffect (.jstr s) = .error .attributeError := rfl

theorem effectSchemaOK_fields (e : JVal) (h : effectSchemaOK e = true) :
    effectFieldsOK e = true := by
  unfold effectSchemaOK at h
  rw [Bool.and_eq_true] at h
  exact h.1

theorem schemaValid_elim (p : JVal) (h : schemaValid p = true) :
    ∃ fs es, p = .jobj fs ∧ lookupF fs "effects" = some (.jarr es) ∧
      1 ≤ es.length ∧ es.length ≤ 5 ∧ ∀ e ∈ es, effectSchemaOK e = true := by
  cases p <;> simp [schemaValid] at h
  rename_i fs
  obtain ⟨⟨h1, h2⟩, h3⟩ := h
  cases hE : lookupF fs "effects" with
  | none => rw [hE] at h2; simp at h2
  | some v =>
      cases v with
      | jarr xs =>
          simp only [hE] at h2
          rw [Bool.and_eq_true, Bool.and_eq_true] at h2
          obtain ⟨⟨d1, d2⟩, d3⟩ := h2
          refine ⟨fs, xs, rfl, hE, of_decide_eq_true d1, of_decide_eq_true d2, ?_⟩
          intro e he
          exact (List.all_eq_true.mp d3) e he
      | jnull => rw [hE] at h2; simp at h2
      | jbool b => rw [hE] at h2; simp at h2
      | jnum q => rw [hE] at h2; simp at h2
      | jstr s => rw [hE] at h2; simp at h2
      | jobj fs2 => rw [hE] at h2; simp at h2

theorem repairPlan_ok (p q : JVal) (h : repairPlan p = .ok q) :
    q = FALLBACK_PLAN ∨
    ∃ intent es, q = .jobj [("intent", intent), ("effects", .jarr es)] ∧
      es ≠ [] ∧ (∀ e ∈ es, FixedEffect e) ∧ es.length = effectsLen p := by
  unfold repairPlan at h
  cases hg1 : pyGetD p "intent" (.jstr "EMOTE_OR_ACTION") <;> simp only [hg1] at h
  · exact absurd h (by simp)
  rename_i intent
  cases hg2 : pyGetD p "effects" (.jarr []) <;> simp only [hg2] at h
  · exact absurd h (by simp)
  rename_i raw
  cases hg3 : pyIterElems raw <;> simp only [hg3] at h
  · exact absurd h (by simp)
  rename_i elems
  cases hg4 : mapE fixEffect elems <;> simp only [hg4] at h
  · exact absurd h (by simp)
  rename_i es
  injection h with h
  by_cases he : es.isEmpty
  · left
    rw [← h, if_pos he]
  · right
    have hne : es ≠ [] := by
      cases es
      · simp at he
      · simp
    refine ⟨intent, es, by rw [← h, if_neg he], hne, ?_, ?_⟩
    · intro e he'
      obtain ⟨x, hx, hgx⟩ := mapE_mem fixEffect elems es hg4 e he'
      exact fixEffect_ok_fixed x e hgx
    · obtain ⟨pfs, rfl⟩ := pyGetD_ok_obj p "intent" _ intent hg1
      have hraw : (lookupF pfs "effects").getD (.jarr []) = raw := by
        have h2 := hg2
        simp [pyGetD] at h2
        exact h2
      have hlen : es.length = elems.length := mapE_length fixEffect elems es hg4
      rcases iter_ok_cases raw elems hg3 with hra | hstr
      · cases hlk : lookupF pfs "effects" with
        | none =>
            rw [hlk] at hraw
            simp at hraw
            rw [← hraw] at hra
            injection hra with hra2
            exact absurd (List.length_eq_zero.mp (by rw [hlen, ← hra2]; rfl)) hne
        | some v =>
            rw [hlk] at hraw
            simp at hraw
            rw [← hraw] at hra
            rw [hra] at hlk
            simp [effectsLen, hlk, hlen]
      · cases elems with
        | nil =>
            exact absurd (List.length_eq_zero.mp (by rw [hlen]; rfl)) hne
        | cons x xs =>
            obtain ⟨s, rfl⟩ := hstr x (by simp)
            unfold mapE at hg4
            rw [fixEffect_jstr] at hg4
            simp at hg4

theorem fixNum_absent (fields : List (String × JVal)) (k : String)
    (dflt lo hi : ℚ) (q : ℚ) (hnone : lookupF fields k = none)
    (h : fixNum (.jobj fields) k dflt lo hi = .ok q) :
    q = pyMin (pyMax dflt lo) hi := by
  unfold fixNum at h
  rw [show pyGetD (.jobj fields) k (.jnum dflt) = .ok (.jnum dflt) from by
    simp [pyGetD, hnone]] at h
  simp [pyFloat] at h
  exact h.symm

theorem fixNum_num (fields : List (String × JVal)) (k : String)
    (dflt lo hi : ℚ) (q q0 : ℚ) (hsome : lookupF fields k = some (.jnum q0))
    (h : fixNum (.jobj fields) k dflt lo hi = .ok q) :
    q = pyMin (pyMax q0 lo) hi := by
  unfold fixNum at h
  rw [show pyGetD (.jobj fields) k (.jnum dflt) = .ok (.jnum q0) from by
    simp [pyGetD, hsome]] at h
  simp [pyFloat] at h
  exact h.symm

theorem fixInt_absent (fields : List (String × JVal)) (k : String)
    (dflt : ℚ) (lo hi n : ℤ) (hnone : lookupF fields k = none)
    (h : fixInt (.jobj fields) k (.jnum dflt) lo hi = .ok n) :
    n = pyMin (pyMax (ratTrunc dflt) lo) hi := by
  unfold fixInt at h
  rw [show pyGetD (.jobj fields) k (.jnum dflt) = .ok (.jnum dflt) from by
    simp [pyGetD, hnone]] at h
  simp [pyInt] at h
  exact h.symm

theorem fixInt_num (fields : List (String × JVal)) (k : String)
    (dflt : ℚ) (lo hi n : ℤ) (q0 : ℚ) (hsome : lookupF fields k = some (.jnum q0))
    (h : fixInt (.jobj fields) k (.jnum dflt) lo hi = .ok n) :
    n = pyMin (pyMax (ratTrunc q0) lo) hi := by
  unfold fixInt at h
  rw [show pyGetD (.jobj fields) k (.jnum dflt) = .ok (.jnum q0) from by
    simp [pyGetD, hsome]] at h
  simp [pyInt] at h
  exact h.symm

/-- C1 counterexample: validate_or_fix is not total. On a plan whose
single effect carries hz: null the schema check fails and the repair
path calls float(None), which raises TypeError; the exception propagates
out of the validator. -/
theorem validator_total_counterexample :
    validate_or_fix (.jobj [("intent", .jstr "X"),
        ("effects", .jarr [.jobj [("part", .jstr "tail"), ("mode", .jstr "wag"),
          ("hz", .jnull)]])])
      = .error .typeError := by decide

/-- C1 amended: whenever validate_or_fix returns (it can raise on
non-numeric field values and non-iterable effect entries), the returned
plan holds an effects array with at least one entry and at most
max 5 n entries, where n is the length of the input effects array (a
repaired over-long input keeps its length, so 5 is only guaranteed when
the input had at most 5 entries); every returned effect has part and
mode in the allowed enumerations and hz, duty, duration_ms within their
declared bounds whenever present. -/
theorem validator_shape_amended (p q : JVal) (h : validate_or_fix p = .ok q) :
    ∃ fs es, q = .jobj fs ∧ lookupF fs "effects" = some (.jarr es) ∧
      1 ≤ es.length ∧ es.length ≤ max 5 (effectsLen p) ∧
      ∀ e ∈ es, effectFieldsOK e = true := by
  unfold validate_or_fix at h
  by_cases hs : schemaValid p
  · rw [if_pos hs] at h
    injection h with h
    rcases schemaValid_elim p hs with ⟨fs, es, hpeq, hE, l1, l2, hall⟩
    exact ⟨fs, es, by rw [← h, hpeq], hE, l1, le_trans l2 (le_max_left _ _),
      fun e he => effectSchemaOK_fields e (hall e he)⟩
  · rw [if_neg hs] at h
    rcases repairPlan_ok p q h with rfl | ⟨intent, es, rfl, hne, hfx, hlen⟩
    · exact ⟨_, _, rfl, rfl, by decide,
        le_trans (by norm_num) (le_max_left 5 _), by decide⟩
    · refine ⟨_, es, rfl, rfl, ?_, ?_, ?_⟩
      · exact List.length_pos.mpr hne
      · rw [hlen]
        exact le_max_right 5 _
      · exact fun e he => fixedEffect_fieldsOK e (hfx e he)

/-- C1 witness: the amended statement applied to the scenario input of
the claim set. -/
theorem validator_shape_amended_witness :
    ∃ fs es,
      (JVal.jobj [("intent", .jstr "X"),
        ("effects", .jarr [.jobj [("part", .jstr "tail"), ("mode", .jstr "wag"),
          ("hz", .jnum 30), ("duty", .jnum (mkRat 1 2)),
          ("duration_ms", .jnum 1500)]])]) = .jobj fs ∧
      lookupF fs "effects" = some (.jarr es) ∧
      1 ≤ es.length ∧
      es.length ≤ max 5 (effectsLen (.jobj [("intent", .jstr "X"),
        ("effects", .jarr [.jobj [("part", .jstr "nose"), ("mode", .jstr "spin"),
          ("hz", .jnum 999)]])])) ∧
      ∀ e ∈ es, effectFieldsOK e = true :=
  validator_shape_amended _ _ (by decide)

/-- C2 counterexample: on an effect with the numeric value 100.7 for
duration_ms the repaired value is int(100.7) = 100 clamped, not
min(max(100.7, 50), 60000) = 100.7: the conversion truncates before the
clamp, so the repaired value differs from the claimed formula. -/
theorem clamp_law_counterexample :
    validate_or_fix (.jobj [("intent", .jstr "X"),
        ("effects", .jarr [.jobj [("part", .jstr "tail"), ("mode", .jstr "wag"),
          ("duration_ms", .jnum (mkRat 1007 10))]])])
      = .ok (.jobj [("intent", .jstr "X"),
        ("effects", .jarr [.jobj [("part", .jstr "tail"), ("mode", .jstr "wag"),
          ("hz", .jnum 6), ("duty", .jnum (mkRat 1 2)),
          ("duration_ms", .jnum 100)]])]) ∧
    ¬((100 : ℚ) = min (max (mkRat 1007 10) 50) 60000) := by decide

/-- C2 amended: in the repair loop, an absent hz, duty or duration_ms is
replaced by its documented default (6, 0.5, 1500); a numeric hz or duty
value v is replaced by min(max(v, lo), hi); a numeric duration_ms value
v is first truncated toward zero by int() and then clamped, giving
min(max(trunc(v), 50), 60000); a non-numeric value raises instead of
defaulting, which the success hypothesis excludes. -/
theorem clamp_law_amended (fields : List (String × JVal)) (f : JVal)
    (hok : fixEffect (.jobj fields) = .ok f) :
    ∃ fs, f = .jobj fs ∧
    (lookupF fields "hz" = none → lookupF fs "hz" = some (.jnum 6)) ∧
    (∀ q, lookupF fields "hz" = some (.jnum q) →
      lookupF fs "hz" = some (.jnum (min (max q (mkRat 1 10)) 30))) ∧
    (lookupF fields "duty" = none →
      lookupF fs "duty" = some (.jnum (mkRat 1 2))) ∧
    (∀ q, lookupF fields "duty" = some (.jnum q) →
      lookupF fs "duty" = some (.jnum (min (max q 0) 1))) ∧
    (lookupF fields "duration_ms" = none →
      lookupF fs "duration_ms" = some (.jnum 1500)) ∧
    (∀ q, lookupF fields "duration_ms" = some (.jnum q) →
      lookupF fs "duration_ms" =
        some (.jnum ((min (max (ratTrunc q) 50) 60000 : ℤ) : ℚ))) := by
  obtain ⟨part, mode, hz, duty, dur, e1, e2, e3, e4, e5, rfl⟩ :=
    fixEffect_ok_parts _ f hok
  refine ⟨_, rfl, ?_, ?_, ?_, ?_, ?_, ?_⟩
  · intro hnone
    have hv := fixNum_absent fields "hz" 6 (mkRat 1 10) 30 hz hnone e3
    have : hz = 6 := by rw [hv]; decide
    rw [show lookupF [("part", part), ("mode", mode), ("hz", .jnum hz),
      ("duty", .jnum duty), ("duration_ms", .jnum ((dur : ℤ) : ℚ))] "hz"
        = some (.jnum hz) from rfl, this]
  · intro q hsome
    have hv := fixNum_num fields "hz" 6 (mkRat 1 10) 30 hz q hsome e3
    rw [show lookupF [("part", part), ("mode", mode), ("hz", .jnum hz),
      ("duty", .jnum duty), ("duration_ms", .jnum ((dur : ℤ) : ℚ))] "hz"
        = some (.jnum hz) from rfl, hv, pyMin_eq, pyMax_eq]
  · intro hnone
    have hv := fixNum_absent fields "duty" (mkRat 1 2) 0 1 duty hnone e4
    have : duty = mkRat 1 2 := by rw [hv]; decide
    rw [show lookupF [("part", part), ("mode", mode), ("hz", .jnum hz),
      ("duty", .jnum duty), ("duration_ms", .jnum ((dur : ℤ) : ℚ))] "duty"
        = some (.jnum duty) from rfl, this]
  · intro q hsome
    have hv := fixNum_num fields "duty" (mkRat 1 2) 0 1 duty q hsome e4
    rw [show lookupF [("part", part), ("mode", mode), ("hz", .jnum hz),
      ("duty", .jnum duty), ("duration_ms", .jnum ((dur : ℤ) : ℚ))] "duty"
        = some (.jnum duty) from rfl, hv, pyMin_eq, pyMax_eq]
  · intro hnone
    have hv := fixInt_absent fields "duration_ms" 1500 50 60000 dur hnone e5
    have : dur = 1500 := by rw [hv]; decide
    rw [show lookupF [("part", part), ("mode", mode), ("hz", .jnum hz),
      ("duty", .jnum duty), ("duration_ms", .jnum ((dur : ℤ) : ℚ))] "duration_ms"
        = some (.jnum ((dur : ℤ) : ℚ)) from rfl, this]
    norm_num
  · intro q hsome
    have hv := fixInt_num fields "duration_ms" 1500 50 60000 dur q hsome e5
    rw [show lookupF [("part", part), ("mode", mode), ("hz", .jnum hz),
      ("duty", .jnum duty), ("duration_ms", .jnum ((dur : ℤ) : ℚ))] "duration_ms"
        = some (.jnum ((dur : ℤ) : ℚ)) from rfl, hv, pyMin_eq, pyMax_eq]

/-- C2 witness: the amended statement applied to a concrete effect whose
duration_ms is the numeric value 100.7. -/
theorem clamp_law_amended_witness :
    ∃ fs,
      (JVal.jobj [("part", .jstr "tail"), ("mode", .jstr "wag"),
        ("hz", .jnum 6), ("duty", .jnum (mkRat 1 2)),
        ("duration_ms", .jnum 100)]) = .jobj fs ∧
      (lookupF [("part", .jstr "tail"), ("mode", .jstr "wag"),
        ("duration_ms", .jnum (mkRat 1007 10))] "hz" = none →
        lookupF fs "hz" = some (.jnum 6)) ∧
      (∀ q, lookupF [("part", .jstr "tail"), ("mode", .jstr "wag"),
        ("duration_ms", .jnum (mkRat 1007 10))] "hz" = some (.jnum q) →
        lookupF fs "hz" = some (.jnum (min (max q (mkRat 1 10)) 30))) ∧
      (lookupF [("part", .jstr "tail"), ("mode", .jstr "wag"),
        ("duration_ms", .jnum (mkRat 1007 10))] "duty" = none →
        lookupF fs "duty" = some (.jnum (mkRat 1 2))) ∧
      (∀ q, lookupF [("part", .jstr "tail"), ("mode", .jstr "wag"),
        ("duration_ms", .jnum (mkRat 1007 10))] "duty" = some (.jnum q) →
        lookupF fs "duty" = some (.jnum (min (max q 0) 1))) ∧
      (lookupF [("part", .jstr "tail"), ("mode", .jstr "wag"),
        ("duration_ms", .jnum (mkRat 1007 10))] "duration_ms" = none →
        lookupF fs "duration_ms" = some (.jnum 1500)) ∧
      (∀ q, lookupF [("part", .jstr "tail"), ("mode", .jstr "wag"),
        ("duration_ms", .jnum (mkRat 1007 10))] "duration_ms" = some (.jnum q) →
        lookupF fs "duration_ms" =
          some (.jnum ((min (max (ratTrunc q) 50) 60000 : ℤ) : ℚ))) :=
  clamp_law_amended [("part", .jstr "tail"), ("mode", .jstr "wag"),
    ("duration_ms", .jnum (mkRat 1007 10))] _ (by decide)

/-- C3: validate_or_fix is idempotent: running the validator on its own
result gives the same outcome as one run, on every input; a schema-valid
plan passes through unchanged, a repaired plan is schema-stable or
rebuilt identically, the fallback is schema-valid, and a raised
exception short-circuits both sides identically. -/
theorem validator_idempotent (p : JVal) :
    Except.bind (validate_or_fix p) validate_or_fix = validate_or_fix p := by
  by_cases hs : schemaValid p
  · simp [validate_or_fix, hs, Except.bind]
  · have hvp : validate_or_fix p = repairPlan p := by
      unfold validate_or_fix
      rw [if_neg hs]
    cases hr : repairPlan p with
    | error e =>
        rw [hvp, hr]
        rfl
    | ok q =>
      have hq : validate_or_fix q = .ok q := by
        rcases repairPlan_ok p q hr with rfl | ⟨intent, es, rfl, hne, hfx, hlen⟩
        · decide
        · by_cases hq2 : schemaValid (.jobj [("intent", intent),
            ("effects", .jarr es)])
          · simp [validate_or_fix, hq2]
          · unfold validate_or_fix
            rw [if_neg hq2]
            unfold repairPlan
            have hemp : es.isEmpty = false := by
              cases es
              · exact absurd rfl hne
              · rfl
            simp only [show pyGetD (.jobj [("intent", intent),
                ("effects", .jarr es)]) "intent" (.jstr "EMOTE_OR_ACTION")
                = .ok intent from rfl,
              show pyGetD (.jobj [("intent", intent), ("effects", .jarr es)])
                "effects" (.jarr []) = .ok (.jarr es) from rfl,
              show pyIterElems (.jarr es) = .ok es from rfl,
              mapE_id fixEffect es (fun e he => fixedEffect_fix_id e (hfx e he)),
              hemp]
            rfl
      rw [hvp, hr]
      exact hq
